import Mathlib

/-!
Shallow embedding of the concurrency core of the nest-ticket-queue repository:
the Redis-backed ledger (`src/redis/redis.service.ts`), the durable mirror of
queue entries and reservations, the queue/promotion service
(`src/queue/queue.service.ts`) and the reservation payment/expiration service
(`src/reservations/reservations.service.ts`), together with small-step
interleaving models for the concurrent protocols.

Instants are modelled as natural numbers (milliseconds); Redis integer
counters as `Int` (DECR may go negative); sorted sets as lists of
(member, score) pairs kept in (score, member) order, which is exactly the
order Redis uses for ZRANK.
-/

namespace TicketQueue

/-! ## Sorted-set primitives (the shape of Redis ZADD/ZRANK/ZREM/ZRANGE) -/

/-- Redis orders sorted-set members by score, ties broken by the member
string's lexicographic order. -/
def entryLt (a b : String × Nat) : Prop :=
  a.2 < b.2 ∨ (a.2 = b.2 ∧ a.1 < b.1)

instance : DecidablePred (fun p : (String × Nat) × (String × Nat) => entryLt p.1 p.2) :=
  fun p => by unfold entryLt; infer_instance

instance (a b : String × Nat) : Decidable (entryLt a b) := by
  unfold entryLt; infer_instance

/-- Insert an entry into a score-ordered list, keeping the order. -/
def zinsert (e : String × Nat) : List (String × Nat) → List (String × Nat)
  | [] => [e]
  | x :: xs => if entryLt e x then e :: x :: xs else x :: zinsert e xs

/-- Drop a member from the set (the removal half of ZADD-on-existing and
of ZREM). -/
def zremove : List (String × Nat) → String → List (String × Nat)
  | [], _ => []
  | x :: xs, m => if x.1 = m then zremove xs m else x :: zremove xs m

/-- Redis ZADD (default flags): if the member exists its score is replaced,
otherwise the member is inserted; the set stays ordered by (score, member). -/
def zadd (set : List (String × Nat)) (score : Nat) (member : String) :
    List (String × Nat) :=
  zinsert (member, score) (zremove set member)

/-- Redis ZRANK: 0-based rank of a member, `none` if absent. -/
def zrank : List (String × Nat) → String → Option Nat
  | [], _ => none
  | x :: xs, m => if x.1 = m then some 0 else (zrank xs m).map (· + 1)

/-- Redis ZSCORE: the member's score, if present. -/
def zscore : List (String × Nat) → String → Option Nat
  | [], _ => none
  | x :: xs, m => if x.1 = m then some x.2 else zscore xs m

/-- Redis ZREM: remove a member. -/
def zrem (set : List (String × Nat)) (member : String) : List (String × Nat) :=
  zremove set member

/-- Redis ZCARD. -/
def zcard (set : List (String × Nat)) : Nat := set.length

/-- Redis ZRANGE key 0 0: the head member, if any. -/
def zhead : List (String × Nat) → Option String
  | [] => none
  | x :: _ => some x.1

/-! ## Ledger state (`RedisService`, src/redis/redis.service.ts)

One logical Redis instance.  Keys are modelled per family:
`remainingSeats:{eventId}`, `queue:{eventId}`, `active:{eventId}:{userId}`,
`activeCount:{eventId}`, `reservationExpired:{reservationId}`. -/

structure RedisState where
  remainingSeats : String → Int
  queue : String → List (String × Nat)
  /-- Key `active:{e}:{u}`: present with a ttl in seconds. -/
  active : String → String → Option Nat
  activeCount : String → Int
  /-- Fence key `reservationExpired:{r}`: present with an optional ttl
  (SETNX sets it without a ttl; EXPIRE then attaches one). -/
  reservationExpired : String → Option (Option Nat)

namespace RedisState

def initial : RedisState where
  remainingSeats := fun _ => 0
  queue := fun _ => []
  active := fun _ _ => none
  activeCount := fun _ => 0
  reservationExpired := fun _ => none

end RedisState

namespace RedisService

/-- Embeds `initializeSeats`: SET remainingSeats:{e} = count. -/
def initializeSeats (st : RedisState) (eventId : String) (count : Int) : RedisState :=
  { st with remainingSeats := fun e => if e = eventId then count else st.remainingSeats e }

/-- Embeds `decrementSeats`: DECR, returning the new (possibly negative) value. -/
def decrementSeats (st : RedisState) (eventId : String) : RedisState × Int :=
  let v := st.remainingSeats eventId - 1
  ({ st with remainingSeats := fun e => if e = eventId then v else st.remainingSeats e }, v)

/-- Embeds `incrementSeats`: INCR, returning the new value. -/
def incrementSeats (st : RedisState) (eventId : String) : RedisState × Int :=
  let v := st.remainingSeats eventId + 1
  ({ st with remainingSeats := fun e => if e = eventId then v else st.remainingSeats e }, v)

/-- Embeds `addToQueue`: ZADD queue:{e} now user; then ZRANK; returns rank+1
(1 when ZRANK is null). `now` embeds `Date.now()`. -/
def addToQueue (st : RedisState) (eventId userId : String) (now : Nat) :
    RedisState × Nat :=
  let q := zadd (st.queue eventId) now userId
  let st' := { st with queue := fun e => if e = eventId then q else st.queue e }
  match zrank q userId with
  | some r => (st', r + 1)
  | none => (st', 1)

/-- Embeds `getQueuePosition`: ZRANK + 1, or null. -/
def getQueuePosition (st : RedisState) (eventId userId : String) : Option Nat :=
  (zrank (st.queue eventId) userId).map (· + 1)

/-- Embeds `getQueueLength`: ZCARD. -/
def getQueueLength (st : RedisState) (eventId : String) : Nat :=
  zcard (st.queue eventId)

/-- Embeds `removeFromQueue`: ZREM. -/
def removeFromQueue (st : RedisState) (eventId userId : String) : RedisState :=
  { st with queue := fun e =>
      if e = eventId then zrem (st.queue eventId) userId else st.queue e }

/-- Embeds `getNextInQueue`: ZRANGE 0 0. -/
def getNextInQueue (st : RedisState) (eventId : String) : Option String :=
  zhead (st.queue eventId)

/-- Embeds `setActiveUser`: SETEX active:{e}:{u} ttl "1"; INCR activeCount:{e}. -/
def setActiveUser (st : RedisState) (eventId userId : String) (ttlSeconds : Nat) :
    RedisState :=
  { st with
    active := fun e u =>
      if e = eventId ∧ u = userId then some ttlSeconds else st.active e u
    activeCount := fun e =>
      if e = eventId then st.activeCount eventId + 1 else st.activeCount e }

/-- Embeds `removeActiveUser`: DEL; if the key existed, DECR activeCount:{e}. -/
def removeActiveUser (st : RedisState) (eventId userId : String) : RedisState :=
  match st.active eventId userId with
  | some _ =>
    { st with
      active := fun e u => if e = eventId ∧ u = userId then none else st.active e u
      activeCount := fun e =>
        if e = eventId then st.activeCount eventId - 1 else st.activeCount e }
  | none => st

/-- Embeds `setReservationExpired`: SETNX reservationExpired:{r} "1"; on success
EXPIRE 3600 and return true, else return false. -/
def setReservationExpired (st : RedisState) (reservationId : String) :
    RedisState × Bool :=
  match st.reservationExpired reservationId with
  | some _ => (st, false)
  | none =>
    ({ st with reservationExpired := fun r =>
        if r = reservationId then some (some 3600) else st.reservationExpired r },
     true)

end RedisService

/-! ## Durable mirror (TypeORM entities and repositories)

`QueueEntry` from src/queue/entities/queue-entry.entity.ts; `Reservation`
follows the entity fields used by src/reservations/reservations.service.ts
and the repository design document's ERD (id, eventId, userId,
status ∈ {PENDING_PAYMENT, PAID, CANCELED, EXPIRED}, expiresAt, paidAt). -/

inductive QueueEntryStatus
  | WAITING
  | ACTIVE
  | DONE
  | EXPIRED
deriving DecidableEq, Repr

inductive ReservationStatus
  | PENDING_PAYMENT
  | PAID
  | CANCELED
  | EXPIRED
deriving DecidableEq, Repr

structure QueueEntry where
  eventId : String
  userId : String
  status : QueueEntryStatus
  position : Nat
  reservationId : Option String
deriving DecidableEq, Repr

structure Reservation where
  id : String
  eventId : String
  userId : String
  status : ReservationStatus
  expiresAt : Nat
  paidAt : Option Nat
deriving DecidableEq, Repr

/-- Event entity: the fields the queue service reads. -/
structure Event where
  id : String
  totalSeats : Nat
  salesStartAt : Nat
  salesEndAt : Nat
deriving DecidableEq, Repr

/-- The relational store: queue_entries has a unique index on
(eventId, userId); reservations are keyed by id. -/
structure DbState where
  queueEntries : String → String → Option QueueEntry
  reservations : String → Option Reservation

namespace DbState

def initial : DbState where
  queueEntries := fun _ _ => none
  reservations := fun _ => none

/-- Repository `save` of a queue entry (insert or overwrite by the unique
(eventId, userId) key). -/
def saveQueueEntry (db : DbState) (qe : QueueEntry) : DbState :=
  { db with queueEntries := fun e u =>
      if e = qe.eventId ∧ u = qe.userId then some qe else db.queueEntries e u }

/-- TypeORM `update({eventId, userId}, patch)`: applies the patch to the row
matching the key, returning the number of affected rows. -/
def updateQueueEntry (db : DbState) (eventId userId : String)
    (patch : QueueEntry → QueueEntry) : DbState × Nat :=
  match db.queueEntries eventId userId with
  | none => (db, 0)
  | some qe =>
    ({ db with queueEntries := fun e u =>
        if e = eventId ∧ u = userId then some (patch qe) else db.queueEntries e u },
     1)

/-- Repository `save` of a reservation (insert or overwrite by id). -/
def saveReservation (db : DbState) (r : Reservation) : DbState :=
  { db with reservations := fun i =>
      if i = r.id then some r else db.reservations i }

/-- TypeORM `update({id}, patch)` on reservations: keyed by id only. -/
def updateReservation (db : DbState) (id : String)
    (patch : Reservation → Reservation) : DbState × Nat :=
  match db.reservations id with
  | none => (db, 0)
  | some r =>
    ({ db with reservations := fun i =>
        if i = id then some (patch r) else db.reservations i },
     1)

end DbState

/-! ## Combined system state -/

/-- WebSocket notifications emitted by the reservations service. -/
inductive Notice
  | paymentSuccess (userId reservationId : String)
  | reservationExpired (userId reservationId : String)
deriving DecidableEq, Repr

structure SysState where
  redis : RedisState
  db : DbState
  /-- BullMQ delayed jobs: (jobId, reservationId, delay in ms). -/
  expirationJobs : List (String × String × Nat)
  notices : List Notice

/-! ## Service-layer errors (Nest HTTP exceptions) -/

inductive ServiceError
  | badRequest (msg : String)
  | notFound (msg : String)
  | forbidden (msg : String)
  | internal (msg : String)
deriving DecidableEq, Repr

/-! ## ReservationsService (src/reservations/reservations.service.ts) -/

def RESERVATION_TTL_SECONDS : Nat := 300

inductive ExpirationReason
  | expired
  | already_processed
  | not_pending
  | not_found
deriving DecidableEq, Repr

structure ExpirationResult where
  processed : Bool
  reason : ExpirationReason
deriving DecidableEq, Repr

namespace ReservationsService

/-- Embeds `createReservation`: inserts a PENDING_PAYMENT reservation with
expiresAt = now + 300 s and schedules the delayed expiration job.
`resId` embeds the generated uuid, `now` embeds `Date.now()` (ms). -/
def createReservation (st : SysState) (eventId userId resId : String)
    (now : Nat) : SysState × Reservation :=
  let expiresAt := now + RESERVATION_TTL_SECONDS * 1000
  let reservation : Reservation :=
    { id := resId, eventId, userId, status := .PENDING_PAYMENT, expiresAt,
      paidAt := none }
  let db' := st.db.saveReservation reservation
  let jobs' := st.expirationJobs ++
    [("expire-" ++ resId, resId, RESERVATION_TTL_SECONDS * 1000)]
  ({ st with db := db', expirationJobs := jobs' }, reservation)

/-- Embeds `processPayment`: find; ownership check; PENDING_PAYMENT check;
deadline check; save PAID with paidAt = now; queue entry → DONE; notify. -/
def processPayment (st : SysState) (reservationId userId : String)
    (now : Nat) : SysState × Except ServiceError Reservation :=
  match st.db.reservations reservationId with
  | none => (st, .error (.notFound "Reservation not found"))
  | some reservation =>
    if reservation.userId ≠ userId then
      (st, .error (.forbidden "You are not authorized to pay for this reservation"))
    else if reservation.status ≠ .PENDING_PAYMENT then
      (st, .error (.badRequest "Cannot process payment for reservation with this status"))
    else if reservation.expiresAt < now then
      (st, .error (.badRequest "Reservation has expired"))
    else
      let updated := { reservation with status := .PAID, paidAt := some now }
      let db1 := st.db.saveReservation updated
      let (db2, _) := db1.updateQueueEntry reservation.eventId reservation.userId
        (fun qe => { qe with status := .DONE })
      ({ st with
         db := db2
         notices := st.notices ++ [.paymentSuccess reservation.userId reservationId] },
       .ok updated)

/-- Embeds `expireReservation`: find; skip unless PENDING_PAYMENT; SETNX fence;
winner restores the seat, marks reservation and entry EXPIRED, clears the
active marker and notifies. -/
def expireReservation (st : SysState) (reservationId : String) :
    SysState × ExpirationResult :=
  match st.db.reservations reservationId with
  | none => (st, ⟨false, .not_found⟩)
  | some reservation =>
    if reservation.status ≠ .PENDING_PAYMENT then
      (st, ⟨false, .not_pending⟩)
    else
      let (redis1, isFirstToExpire) :=
        RedisService.setReservationExpired st.redis reservationId
      if !isFirstToExpire then
        ({ st with redis := redis1 }, ⟨false, .already_processed⟩)
      else
        let (redis2, _) := RedisService.incrementSeats redis1 reservation.eventId
        let (db1, _) := st.db.updateReservation reservationId
          (fun r => { r with status := .EXPIRED })
        let (db2, _) := db1.updateQueueEntry reservation.eventId reservation.userId
          (fun qe => { qe with status := .EXPIRED })
        let redis3 := RedisService.removeActiveUser redis2 reservation.eventId
          reservation.userId
        ({ st with
           redis := redis3
           db := db2
           notices := st.notices ++
             [.reservationExpired reservation.userId reservationId] },
         ⟨true, .expired⟩)

end ReservationsService

/-! ## QueueService (src/queue/queue.service.ts) -/

def ACTIVE_USER_TTL_SECONDS : Nat := 300

structure JoinQueueResponse where
  position : Nat
  status : QueueEntryStatus
  eventId : String
  message : String
deriving DecidableEq, Repr

structure QueueStatusDto where
  position : Nat
  status : QueueEntryStatus
  eventId : String
deriving DecidableEq, Repr

inductive PromotionReason
  | promoted
  | sold_out
  | no_users_in_queue
deriving DecidableEq, Repr

structure PromotionResult where
  success : Bool
  userId : String
  reservation : Option Reservation
  reason : Option PromotionReason
deriving DecidableEq, Repr

namespace QueueService

/-- Embeds `joinQueue`: sales-window check, then idempotent join: an existing
durable entry short-circuits (ledger untouched); otherwise ZADD + entry
insert.  `ev` embeds `eventsService.findById` (the event must exist),
`now` embeds `new Date()`. -/
def joinQueue (st : SysState) (ev : Event) (userId : String) (now : Nat) :
    SysState × Except ServiceError JoinQueueResponse :=
  if now < ev.salesStartAt then
    (st, .error (.badRequest "Sales have not started yet"))
  else if ev.salesEndAt < now then
    (st, .error (.badRequest "Sales have ended"))
  else
    match st.db.queueEntries ev.id userId with
    | some existingEntry =>
      let position := RedisService.getQueuePosition st.redis ev.id userId
      (st, .ok { position := position.getD existingEntry.position,
                 status := existingEntry.status, eventId := ev.id,
                 message := "Already in queue" })
    | none =>
      let (redis', position) := RedisService.addToQueue st.redis ev.id userId now
      let queueEntry : QueueEntry :=
        { eventId := ev.id, userId, status := .WAITING, position,
          reservationId := none }
      let db' := st.db.saveQueueEntry queueEntry
      ({ st with redis := redis', db := db' },
       .ok { position, status := .WAITING, eventId := ev.id,
             message := "Successfully joined queue" })

/-- Embeds `getQueueStatus`: durable entry required; position from the ledger with
fallback to the recorded join position. -/
def getQueueStatus (st : SysState) (eventId userId : String) :
    Except ServiceError QueueStatusDto :=
  match st.db.queueEntries eventId userId with
  | none => .error (.notFound "Not in queue for this event")
  | some queueEntry =>
    let position := RedisService.getQueuePosition st.redis eventId userId
    .ok { position := position.getD queueEntry.position,
          status := queueEntry.status, eventId }

/-- Embeds `handleSuccessfulPromotion`: create the reservation (on failure, INCR
the seat back and propagate), set the entry ACTIVE, ZREM the user, set the
active marker.  `reservationSaveFails` injects the only fallible await in
the try block. -/
def handleSuccessfulPromotion (st : SysState) (eventId userId resId : String)
    (now : Nat) (reservationSaveFails : Bool) :
    SysState × Except ServiceError PromotionResult :=
  if reservationSaveFails then
    let (redis', _) := RedisService.incrementSeats st.redis eventId
    ({ st with redis := redis' },
     .error (.internal "Failed to create reservation"))
  else
    let (st1, reservation) :=
      ReservationsService.createReservation st eventId userId resId now
    let (db', _) := st1.db.updateQueueEntry eventId userId
      (fun qe => { qe with status := .ACTIVE, reservationId := some resId })
    let redis1 := RedisService.removeFromQueue st1.redis eventId userId
    let redis2 := RedisService.setActiveUser redis1 eventId userId
      ACTIVE_USER_TTL_SECONDS
    ({ st1 with db := db', redis := redis2 },
     .ok { success := true, userId, reservation := some reservation,
           reason := some .promoted })

/-- Embeds `handleSoldOut`: INCR the seat back, mark the entry EXPIRED, ZREM. -/
def handleSoldOut (st : SysState) (eventId userId : String) :
    SysState × PromotionResult :=
  let (redis1, _) := RedisService.incrementSeats st.redis eventId
  let (db', _) := st.db.updateQueueEntry eventId userId
    (fun qe => { qe with status := .EXPIRED })
  let redis2 := RedisService.removeFromQueue redis1 eventId userId
  ({ st with redis := redis2, db := db' },
   { success := false, userId, reservation := none, reason := some .sold_out })

/-- Embeds `promoteNextUser`: peek the head, DECR the seat counter, branch on the
sign of the result. -/
def promoteNextUser (st : SysState) (eventId resId : String) (now : Nat)
    (reservationSaveFails : Bool) :
    SysState × Except ServiceError PromotionResult :=
  match RedisService.getNextInQueue st.redis eventId with
  | none =>
    (st, .ok { success := false, userId := "", reservation := none,
               reason := some .no_users_in_queue })
  | some nextUserId =>
    let (redis', remainingSeats) := RedisService.decrementSeats st.redis eventId
    let st' := { st with redis := redis' }
    if 0 ≤ remainingSeats then
      handleSuccessfulPromotion st' eventId nextUserId resId now
        reservationSaveFails
    else
      let (st'', r) := handleSoldOut st' eventId nextUserId
      (st'', .ok r)

end QueueService

/-! ## Interleaving model: concurrent `promoteNextUser` against one seat
counter

Each in-flight promotion attempt is reduced to its interaction with
`seats:E`, exactly as in `promoteNextUser` / `handleSuccessfulPromotion` /
`handleSoldOut`: one atomic DECR, then either keeping the seat (admit,
reservation created), compensating INCR on reservation failure, or the
compensating INCR of the sold-out branch.  Every other effect of the
operation touches only the store and the queue set, never the counter. -/

/-- The position of one promotion attempt relative to the seat counter. -/
inductive PromoterPhase
  /-- before the atomic `decrementSeats` -/
  | beforeDecr
  /-- DECR returned ≥ 0: inside `handleSuccessfulPromotion`'s try block -/
  | admitPending
  /-- DECR returned < 0: inside `handleSoldOut`, before its INCR -/
  | soldOutPending
  /-- returned `{success: true, reason: 'promoted'}` -/
  | finishedPromoted
  /-- reservation creation failed: compensating INCR done, error propagated -/
  | finishedFailed
  /-- returned `{success: false, reason: 'sold_out'}`: compensating INCR done -/
  | finishedSoldOut
deriving DecidableEq, Repr

structure PromState where
  seats : Int
  ops : List PromoterPhase
deriving DecidableEq, Repr

/-- One scheduler step: advance attempt `c.1`; `c.2` injects a reservation
creation failure in the admit branch. -/
def promStep (s : PromState) (c : Nat × Bool) : PromState :=
  match s.ops.get? c.1 with
  | some .beforeDecr =>
    let v := s.seats - 1
    { seats := v
      ops := s.ops.set c.1 (if 0 ≤ v then .admitPending else .soldOutPending) }
  | some .admitPending =>
    if c.2 then
      { seats := s.seats + 1, ops := s.ops.set c.1 .finishedFailed }
    else
      { s with ops := s.ops.set c.1 .finishedPromoted }
  | some .soldOutPending =>
    { seats := s.seats + 1, ops := s.ops.set c.1 .finishedSoldOut }
  | _ => s

def promRun (s : PromState) : List (Nat × Bool) → PromState
  | [] => s
  | c :: cs => promRun (promStep s c) cs

/-- Event initialised with N seats (`initializeSeats`), M promotion
attempts about to run. -/
def initPromState (N M : Nat) : PromState :=
  { seats := (N : Int), ops := List.replicate M .beforeDecr }

/-- Units currently taken out of the counter by an attempt. -/
def seatHold : PromoterPhase → Int
  | .admitPending => 1
  | .soldOutPending => 1
  | .finishedPromoted => 1
  | _ => 0

/-- Units permanently claimed by an admit-side attempt. -/
def seatTaken : PromoterPhase → Int
  | .admitPending => 1
  | .finishedPromoted => 1
  | _ => 0

/-- Counts 1 exactly for attempts that returned success. -/
def promotedFlag : PromoterPhase → Int
  | .finishedPromoted => 1
  | _ => 0

/-- Counts 1 exactly for attempts between their DECR and the sold-out
compensating INCR. -/
def pendingCompFlag : PromoterPhase → Int
  | .soldOutPending => 1
  | _ => 0

def sumBy {α : Type} (f : α → Int) : List α → Int
  | [] => 0
  | x :: xs => f x + sumBy f xs

/-! ## Interleaving model: concurrent `expireReservation` on one reservation

Each thread executes the awaited calls of
`ReservationsService.expireReservation` one at a time against the shared
state, using the service/repository definitions above.  The find and the
in-memory status check form one step (no suspension point between them);
each later await is its own step.  The phase carries the snapshot returned
by the find, exactly as the TS code keeps using the loaded `reservation`
object. -/

inductive ExpPhase
  | start
  | preFence (snap : Reservation)
  | preIncr (snap : Reservation)
  | preUpdateRes (snap : Reservation)
  | preUpdateEntry (snap : Reservation)
  | preClearActive (snap : Reservation)
  | doneExpired
  | doneNotFound
  | doneNotPending
  | doneAlready
deriving DecidableEq, Repr

structure ExpRun where
  sys : SysState
  threads : List ExpPhase
  /-- instrumentation: how often `setReservationExpired` returned true. -/
  fenceTrueCount : Nat
  /-- instrumentation: how often these threads ran `incrementSeats`. -/
  seatIncrCount : Nat
  /-- instrumentation: how often the reservation row was written EXPIRED. -/
  expiredWriteCount : Nat

/-- Advance thread `i` of the expiration storm by one awaited call. -/
def expStep (resId : String) (s : ExpRun) (i : Nat) : ExpRun :=
  match s.threads.get? i with
  | some .start =>
    match s.sys.db.reservations resId with
    | none => { s with threads := s.threads.set i .doneNotFound }
    | some reservation =>
      if reservation.status ≠ .PENDING_PAYMENT then
        { s with threads := s.threads.set i .doneNotPending }
      else
        { s with threads := s.threads.set i (.preFence reservation) }
  | some (.preFence snap) =>
    let (redis1, isFirstToExpire) :=
      RedisService.setReservationExpired s.sys.redis resId
    if isFirstToExpire then
      { s with
        sys := { s.sys with redis := redis1 }
        threads := s.threads.set i (.preIncr snap)
        fenceTrueCount := s.fenceTrueCount + 1 }
    else
      { s with
        sys := { s.sys with redis := redis1 }
        threads := s.threads.set i .doneAlready }
  | some (.preIncr snap) =>
    let (redis2, _) := RedisService.incrementSeats s.sys.redis snap.eventId
    { s with
      sys := { s.sys with redis := redis2 }
      threads := s.threads.set i (.preUpdateRes snap)
      seatIncrCount := s.seatIncrCount + 1 }
  | some (.preUpdateRes snap) =>
    let (db1, _) := s.sys.db.updateReservation resId
      (fun r => { r with status := .EXPIRED })
    { s with
      sys := { s.sys with db := db1 }
      threads := s.threads.set i (.preUpdateEntry snap)
      expiredWriteCount := s.expiredWriteCount + 1 }
  | some (.preUpdateEntry snap) =>
    let (db2, _) := s.sys.db.updateQueueEntry snap.eventId snap.userId
      (fun qe => { qe with status := .EXPIRED })
    { s with
      sys := { s.sys with db := db2 }
      threads := s.threads.set i (.preClearActive snap) }
  | some (.preClearActive snap) =>
    let redis3 := RedisService.removeActiveUser s.sys.redis snap.eventId snap.userId
    { s with
      sys := { s.sys with redis := redis3 }
      threads := s.threads.set i .doneExpired }
  | _ => s

def expRunSched (resId : String) (s : ExpRun) : List Nat → ExpRun
  | [] => s
  | i :: is => expRunSched resId (expStep resId s i) is

/-- Initial storm state: n deliveries of the same expiration job, all at
their first await. -/
def initExpRun (st : SysState) (n : Nat) : ExpRun :=
  { sys := st, threads := List.replicate n .start,
    fenceTrueCount := 0, seatIncrCount := 0, expiredWriteCount := 0 }

/-- Counts 1 for threads that won the fence and are still running or
finished. -/
def expWinnerFlag : ExpPhase → Int
  | .preIncr _ => 1
  | .preUpdateRes _ => 1
  | .preUpdateEntry _ => 1
  | .preClearActive _ => 1
  | .doneExpired => 1
  | _ => 0

/-- Counts 1 for threads that already ran their INCR. -/
def expPastIncrFlag : ExpPhase → Int
  | .preUpdateRes _ => 1
  | .preUpdateEntry _ => 1
  | .preClearActive _ => 1
  | .doneExpired => 1
  | _ => 0

/-- Counts 1 for threads that already wrote EXPIRED to the reservation row. -/
def expPastWriteFlag : ExpPhase → Int
  | .preUpdateEntry _ => 1
  | .preClearActive _ => 1
  | .doneExpired => 1
  | _ => 0

/-- Reachable-state invariant of the expiration storm: the ghost counters
count the phases, at most one thread ever holds the fence, and a held
fence is recorded in the coordinator with its one-hour ttl. -/
def expInv (resId : String) (s : ExpRun) : Prop :=
  (s.fenceTrueCount : Int) = sumBy expWinnerFlag s.threads ∧
  (s.seatIncrCount : Int) = sumBy expPastIncrFlag s.threads ∧
  (s.expiredWriteCount : Int) = sumBy expPastWriteFlag s.threads ∧
  sumBy expWinnerFlag s.threads ≤ 1 ∧
  (s.sys.redis.reservationExpired resId = none →
    sumBy expWinnerFlag s.threads = 0) ∧
  (1 ≤ sumBy expWinnerFlag s.threads →
    s.sys.redis.reservationExpired resId = some (some 3600))

/-! ## Interleaving model: one `processPayment` racing one
`expireReservation`

The payment thread runs the awaited calls of
`ReservationsService.processPayment`; the expiration thread reuses the
phases above.  `statusHistory` is instrumentation recording every status
actually written to the reservation row, in order. -/

inductive PayPhase
  | start
  | preSave (snap : Reservation)
  | preEntryUpdate (snap : Reservation)
  | doneOk
  | doneErr
deriving DecidableEq, Repr

structure RaceState where
  sys : SysState
  pay : PayPhase
  expn : ExpPhase
  statusHistory : List ReservationStatus

/-- One awaited call of `processPayment` (find + in-memory checks form one
step; the save and the entry update are one step each). -/
def payStep (resId userId : String) (now : Nat) (s : RaceState) : RaceState :=
  match s.pay with
  | .start =>
    match s.sys.db.reservations resId with
    | none => { s with pay := .doneErr }
    | some reservation =>
      if reservation.userId ≠ userId then { s with pay := .doneErr }
      else if reservation.status ≠ .PENDING_PAYMENT then { s with pay := .doneErr }
      else if reservation.expiresAt < now then { s with pay := .doneErr }
      else { s with pay := .preSave reservation }
  | .preSave snap =>
    let updated := { snap with status := .PAID, paidAt := some now }
    let db1 := s.sys.db.saveReservation updated
    { s with
      sys := { s.sys with db := db1 }
      pay := .preEntryUpdate snap
      statusHistory := s.statusHistory ++ [.PAID] }
  | .preEntryUpdate snap =>
    let (db2, _) := s.sys.db.updateQueueEntry snap.eventId snap.userId
      (fun qe => { qe with status := .DONE })
    { s with
      sys := { s.sys with
               db := db2
               notices := s.sys.notices ++ [.paymentSuccess snap.userId resId] }
      pay := .doneOk }
  | _ => s

/-- One awaited call of `expireReservation` for the racing expiration
thread (same steps as `expStep`, recording status writes). -/
def expStepRace (resId : String) (s : RaceState) : RaceState :=
  match s.expn with
  | .start =>
    match s.sys.db.reservations resId with
    | none => { s with expn := .doneNotFound }
    | some reservation =>
      if reservation.status ≠ .PENDING_PAYMENT then
        { s with expn := .doneNotPending }
      else
        { s with expn := .preFence reservation }
  | .preFence snap =>
    let (redis1, isFirstToExpire) :=
      RedisService.setReservationExpired s.sys.redis resId
    if isFirstToExpire then
      { s with sys := { s.sys with redis := redis1 }, expn := .preIncr snap }
    else
      { s with sys := { s.sys with redis := redis1 }, expn := .doneAlready }
  | .preIncr snap =>
    let (redis2, _) := RedisService.incrementSeats s.sys.redis snap.eventId
    { s with sys := { s.sys with redis := redis2 }, expn := .preUpdateRes snap }
  | .preUpdateRes snap =>
    let (db1, affected) := s.sys.db.updateReservation resId
      (fun r => { r with status := .EXPIRED })
    { s with
      sys := { s.sys with db := db1 }
      expn := .preUpdateEntry snap
      statusHistory := s.statusHistory ++
        (if affected = 1 then [.EXPIRED] else []) }
  | .preUpdateEntry snap =>
    let (db2, _) := s.sys.db.updateQueueEntry snap.eventId snap.userId
      (fun qe => { qe with status := .EXPIRED })
    { s with sys := { s.sys with db := db2 }, expn := .preClearActive snap }
  | .preClearActive snap =>
    let redis3 := RedisService.removeActiveUser s.sys.redis snap.eventId snap.userId
    { s with
      sys := { s.sys with
               redis := redis3
               notices := s.sys.notices ++ [.reservationExpired snap.userId resId] }
      expn := .doneExpired }
  | _ => s

/-- Interleave the two threads: `true` advances payment, `false`
advances expiration. -/
def raceRun (resId userId : String) (now : Nat) (s : RaceState) :
    List Bool → RaceState
  | [] => s
  | true :: rest => raceRun resId userId now (payStep resId userId now s) rest
  | false :: rest => raceRun resId userId now (expStepRace resId s) rest

/-! ## Sequential join histories (repeated `joinQueue` calls) -/

/-- Run a sequence of `joinQueue` calls by one user, collecting the
responses. -/
def runJoins (st : SysState) (ev : Event) (userId : String) :
    List Nat → SysState × List (Except ServiceError JoinQueueResponse)
  | [] => (st, [])
  | t :: ts =>
    let (st', r) := QueueService.joinQueue st ev userId t
    let (stF, rs) := runJoins st' ev userId ts
    (stF, r :: rs)

/-! ## Concrete states used by witnesses and counterexamples -/

def sampleReservation : Reservation :=
  { id := "R1", eventId := "E1", userId := "U1",
    status := .PENDING_PAYMENT, expiresAt := 1000000, paidAt := none }

def sampleEntryActive : QueueEntry :=
  { eventId := "E1", userId := "U1", status := .ACTIVE, position := 1,
    reservationId := some "R1" }

/-- State right after U1 was promoted: PENDING reservation R1, ACTIVE
entry, seat taken, user removed from the queue set, active marker set. -/
def promotedSys : SysState :=
  { redis :=
      { remainingSeats := fun _ => 0
        queue := fun _ => []
        active := fun e u => if e = "E1" ∧ u = "U1" then some 300 else none
        activeCount := fun e => if e = "E1" then 1 else 0
        reservationExpired := fun _ => none }
    db :=
      { queueEntries := fun e u =>
          if e = "E1" ∧ u = "U1" then some sampleEntryActive else none
        reservations := fun i =>
          if i = "R1" then some sampleReservation else none }
    expirationJobs := [("expire-R1", "R1", 300000)]
    notices := [] }

def raceInit : RaceState :=
  { sys := promotedSys, pay := .start, expn := .start, statusHistory := [] }

/-- The racing schedule: the expiration thread reads the PENDING status,
then the payment runs to completion, then the expiration finishes. -/
def raceSchedule : List Bool :=
  [false, true, true, true, false, false, false, false, false]

/-- A WAITING entry at the head of the queue with seats still left;
used to exercise the promotion paths. -/
def waitingSys : SysState :=
  { redis :=
      { remainingSeats := fun e => if e = "E1" then 2 else 0
        queue := fun e => if e = "E1" then [("U1", 100)] else []
        active := fun _ _ => none
        activeCount := fun _ => 0
        reservationExpired := fun _ => none }
    db :=
      { queueEntries := fun e u =>
          if e = "E1" ∧ u = "U1" then
            some { eventId := "E1", userId := "U1", status := .WAITING,
                   position := 1, reservationId := none }
          else none
        reservations := fun _ => none }
    expirationJobs := []
    notices := [] }

/-- Same shape with the seat pool exhausted. -/
def soldOutSys : SysState :=
  { waitingSys with redis := { waitingSys.redis with remainingSeats := fun _ => 0 } }

/-- A small ledger whose queue for event EV already contains alice with
join score 100. -/
def c6Redis : RedisState :=
  { RedisState.initial with
    queue := fun e => if e = "EV" then [("alice", 100)] else [] }

def emptySys : SysState :=
  { redis := RedisState.initial, db := DbState.initial,
    expirationJobs := [], notices := [] }

def sampleEvent : Event :=
  { id := "E1", totalSeats := 2, salesStartAt := 0, salesEndAt := 1000000 }

theorem sumBy_replicate {α : Type} (f : α → Int) (n : Nat) (a : α) :
    sumBy f (List.replicate n a) = n * f a := by
  induction n with
  | zero => simp [sumBy]
  | succ k ih => simp [List.replicate, sumBy, ih]; ring

theorem sumBy_set {α : Type} (f : α → Int) (l : List α) (i : Nat) (a x : α)
    (h : l.get? i = some a) :
    sumBy f (l.set i x) = sumBy f l - f a + f x := by
  induction l generalizing i with
  | nil => simp at h
  | cons y ys ih =>
    cases i with
    | zero =>
      simp only [List.get?] at h
      cases h
      simp [List.set, sumBy]; ring
    | succ j =>
      simp only [List.get?] at h
      simp [List.set, sumBy, ih j h]; ring

theorem sumBy_mono {α : Type} (f g : α → Int) (l : List α)
    (h : ∀ a, f a ≤ g a) : sumBy f l ≤ sumBy g l := by
  induction l with
  | nil => simp [sumBy]
  | cons y ys ih => simpa [sumBy] using add_le_add (h y) ih

theorem sumBy_add_pointwise {α : Type} (f g h : α → Int) (l : List α)
    (hp : ∀ a, f a = g a + h a) :
    sumBy f l = sumBy g l + sumBy h l := by
  induction l with
  | nil => simp [sumBy]
  | cons y ys ih => simp [sumBy, hp y, ih]; ring

/-- The reachable-state invariant of the decrement-first protocol: the
counter equals N minus the units currently held, and at most N units are
ever claimed on the admit side. -/
def promInv (N : Nat) (s : PromState) : Prop :=
  s.seats = (N : Int) - sumBy seatHold s.ops ∧ sumBy seatTaken s.ops ≤ (N : Int)

theorem seatTaken_le_seatHold (p : PromoterPhase) : seatTaken p ≤ seatHold p := by
  cases p <;> simp [seatTaken, seatHold]

theorem promStep_inv (N : Nat) (s : PromState) (c : Nat × Bool)
    (h : promInv N s) : promInv N (promStep s c) := by
  obtain ⟨h1, h2⟩ := h
  unfold promStep
  cases hg : s.ops.get? c.1 with
  | none => exact ⟨h1, h2⟩
  | some p =>
    cases p with
    | beforeDecr =>
      by_cases hv : (0 : Int) ≤ s.seats - 1
      · constructor
        · simp only [hv, if_pos, promInv]
          rw [sumBy_set seatHold _ _ _ _ hg]
          simp [seatHold, h1]; ring
        · simp only [hv, if_pos]
          rw [sumBy_set seatTaken _ _ _ _ hg]
          simp only [seatTaken]
          have hhold : sumBy seatTaken s.ops ≤ sumBy seatHold s.ops :=
            sumBy_mono _ _ _ seatTaken_le_seatHold
          have : (0 : Int) ≤ (N : Int) - sumBy seatHold s.ops - 1 := by
            rw [← h1]; exact hv
          omega
      · constructor
        · simp only [hv, if_neg, if_false]
          rw [sumBy_set seatHold _ _ _ _ hg]
          simp [seatHold, h1]; ring
        · simp only [hv, if_neg, if_false]
          rw [sumBy_set seatTaken _ _ _ _ hg]
          simpa [seatTaken] using h2
    | admitPending =>
      by_cases hf : c.2 = true
      · rw [if_pos hf]
        constructor
        · show s.seats + 1 = _
          rw [sumBy_set seatHold _ _ _ _ hg]
          simp [seatHold, h1]; ring
        · show sumBy seatTaken _ ≤ _
          rw [sumBy_set seatTaken _ _ _ _ hg]
          simp only [seatTaken]
          omega
      · rw [if_neg hf]
        constructor
        · show s.seats = _
          rw [sumBy_set seatHold _ _ _ _ hg]
          simpa [seatHold] using h1
        · show sumBy seatTaken _ ≤ _
          rw [sumBy_set seatTaken _ _ _ _ hg]
          simpa [seatTaken] using h2
    | soldOutPending =>
      constructor
      · rw [sumBy_set seatHold _ _ _ _ hg]
        simp [seatHold, h1]; ring
      · rw [sumBy_set seatTaken _ _ _ _ hg]
        simpa [seatTaken] using h2
    | finishedPromoted => exact ⟨h1, h2⟩
    | finishedFailed => exact ⟨h1, h2⟩
    | finishedSoldOut => exact ⟨h1, h2⟩

theorem promRun_inv (N : Nat) (s : PromState) (sched : List (Nat × Bool))
    (h : promInv N s) : promInv N (promRun s sched) := by
  induction sched generalizing s with
  | nil => exact h
  | cons c cs ih => exact ih _ (promStep_inv N s c h)

theorem initPromState_inv (N M : Nat) : promInv N (initPromState N M) := by
  constructor
  · simp [initPromState, sumBy_replicate, seatHold]
  · simp [initPromState, sumBy_replicate, seatTaken]

/-! ## Sorted-set lemmas -/

theorem zscore_zremove_self (l : List (String × Nat)) (u : String) :
    zscore (zremove l u) u = none := by
  induction l with
  | nil => simp [zremove, zscore]
  | cons x xs ih =>
    by_cases hx : x.1 = u
    · simp [zremove, hx, ih]
    · simp [zremove, hx, zscore, ih]

theorem zscore_zremove_other (l : List (String × Nat)) (u v : String)
    (h : v ≠ u) : zscore (zremove l u) v = zscore l v := by
  have huv : ¬ u = v := fun hc => h hc.symm
  induction l with
  | nil => simp [zremove]
  | cons x xs ih =>
    by_cases hx : x.1 = u
    · have hxv : ¬ x.1 = v := by rw [hx]; exact huv
      simp [zremove, hx, zscore, hxv, huv, ih]
    · by_cases hv : x.1 = v
      · simp [zremove, hx, zscore, hv, h, ih]
      · simp [zremove, hx, zscore, hv, ih]

theorem zscore_zinsert_self (l : List (String × Nat)) (u : String) (t : Nat)
    (h : zscore l u = none) : zscore (zinsert (u, t) l) u = some t := by
  induction l with
  | nil => simp [zinsert, zscore]
  | cons x xs ih =>
    simp only [zscore] at h
    by_cases hx : x.1 = u
    · simp [hx] at h
    · simp only [hx, if_false] at h
      by_cases hlt : entryLt (u, t) x
      · simp [zinsert, hlt, zscore]
      · simp [zinsert, hlt, zscore, hx, ih h]

theorem zscore_zinsert_other (l : List (String × Nat)) (u v : String) (t : Nat)
    (h : v ≠ u) : zscore (zinsert (u, t) l) v = zscore l v := by
  have huv : ¬ u = v := fun hc => h hc.symm
  induction l with
  | nil => simp [zinsert, zscore, huv]
  | cons x xs ih =>
    by_cases hlt : entryLt (u, t) x
    · simp [zinsert, hlt, zscore, huv]
    · by_cases hv : x.1 = v
      · simp [zinsert, hlt, zscore, hv]
      · simp [zinsert, hlt, zscore, hv, ih]

theorem length_zinsert (e : String × Nat) (l : List (String × Nat)) :
    (zinsert e l).length = l.length + 1 := by
  induction l with
  | nil => simp [zinsert]
  | cons x xs ih =>
    by_cases hlt : entryLt e x
    · simp [zinsert, hlt]
    · simp [zinsert, hlt, ih]

theorem zinsert_append (l : List (String × Nat)) (u : String) (t : Nat)
    (h : ∀ x ∈ l, x.2 < t) : zinsert (u, t) l = l ++ [(u, t)] := by
  induction l with
  | nil => simp [zinsert]
  | cons x xs ih =>
    have hx : x.2 < t := h x (by simp)
    have hlt : ¬ entryLt (u, t) x := by
      intro hc
      rcases hc with hc | ⟨hc, _⟩ <;> omega
    simp [zinsert, hlt, ih (fun y hy => h y (by simp [hy]))]

theorem zremove_eq_self_of_zscore_none (l : List (String × Nat)) (u : String)
    (h : zscore l u = none) : zremove l u = l := by
  induction l with
  | nil => simp [zremove]
  | cons x xs ih =>
    simp only [zscore] at h
    by_cases hx : x.1 = u
    · simp [hx] at h
    · simp only [hx, if_false] at h
      simp [zremove, hx, ih h]

theorem zrank_none_iff_zscore_none (l : List (String × Nat)) (u : String) :
    zrank l u = none ↔ zscore l u = none := by
  induction l with
  | nil => simp [zrank, zscore]
  | cons x xs ih =>
    by_cases hx : x.1 = u
    · simp [zrank, zscore, hx]
    · simp [zrank, zscore, hx, Option.map_eq_none', ih]

theorem zrank_append_left (l l2 : List (String × Nat)) (u : String) (r : Nat)
    (h : zrank l u = some r) : zrank (l ++ l2) u = some r := by
  induction l generalizing r with
  | nil => simp [zrank] at h
  | cons x xs ih =>
    by_cases hx : x.1 = u
    · simp only [zrank, hx, if_true] at h ⊢
      simpa using h
    · simp only [zrank, hx, if_false, Option.map_eq_some'] at h
      obtain ⟨r0, hr0, hr⟩ := h
      simp only [List.cons_append, zrank, hx, if_false, List.append_eq,
        ih r0 hr0, Option.map_some']
      rw [hr]

theorem zrank_append_self (l : List (String × Nat)) (u : String) (t : Nat)
    (h : zscore l u = none) : zrank (l ++ [(u, t)]) u = some l.length := by
  induction l with
  | nil => simp [zrank]
  | cons x xs ih =>
    simp only [zscore] at h
    by_cases hx : x.1 = u
    · simp [hx] at h
    · simp only [hx, if_false] at h
      simp [zrank, hx, ih h]

theorem zscore_zrem_self (l : List (String × Nat)) (u : String) :
    zscore (zrem l u) u = none :=
  zscore_zremove_self l u

/-- The score recorded after `zadd` is the new score (the member is
present). -/
theorem zscore_zadd_self (l : List (String × Nat)) (u : String) (t : Nat) :
    zscore (zadd l t u) u = some t :=
  zscore_zinsert_self _ _ _ (zscore_zremove_self l u)

theorem zscore_zadd_other (l : List (String × Nat)) (u v : String) (t : Nat)
    (h : v ≠ u) : zscore (zadd l t u) v = zscore l v := by
  rw [zadd, zscore_zinsert_other _ _ _ _ h, zscore_zremove_other _ _ _ h]

theorem zrank_zadd_isSome (l : List (String × Nat)) (u : String) (t : Nat) :
    ∃ r, zrank (zadd l t u) u = some r := by
  cases hr : zrank (zadd l t u) u with
  | some r => exact ⟨r, rfl⟩
  | none =>
    rw [zrank_none_iff_zscore_none, zscore_zadd_self] at hr
    cases hr

/-! ## Repository frame lemmas -/

theorem updateQueueEntry_reservations (db : DbState) (e u : String)
    (p : QueueEntry → QueueEntry) :
    (db.updateQueueEntry e u p).1.reservations = db.reservations := by
  unfold DbState.updateQueueEntry
  cases db.queueEntries e u <;> rfl

theorem updateQueueEntry_self (db : DbState) (e u : String)
    (p : QueueEntry → QueueEntry) :
    (db.updateQueueEntry e u p).1.queueEntries e u =
      (db.queueEntries e u).map p := by
  unfold DbState.updateQueueEntry
  cases h : db.queueEntries e u <;> simp [h]

theorem updateQueueEntry_other (db : DbState) (e u : String)
    (p : QueueEntry → QueueEntry) (e2 u2 : String)
    (h : ¬ (e2 = e ∧ u2 = u)) :
    (db.updateQueueEntry e u p).1.queueEntries e2 u2 =
      db.queueEntries e2 u2 := by
  unfold DbState.updateQueueEntry
  cases hq : db.queueEntries e u
  · rfl
  · simp [h]

theorem saveReservation_queueEntries (db : DbState) (r : Reservation) :
    (db.saveReservation r).queueEntries = db.queueEntries := rfl

theorem saveReservation_self (db : DbState) (r : Reservation) :
    (db.saveReservation r).reservations r.id = some r := by
  simp [DbState.saveReservation]

theorem saveReservation_other (db : DbState) (r : Reservation) (i : String)
    (h : i ≠ r.id) : (db.saveReservation r).reservations i =
      db.reservations i := by
  simp [DbState.saveReservation, h]

theorem updateReservation_self (db : DbState) (id : String)
    (p : Reservation → Reservation) :
    (db.updateReservation id p).1.reservations id =
      (db.reservations id).map p := by
  unfold DbState.updateReservation
  cases h : db.reservations id <;> simp [h]

theorem incrementSeats_reservationExpired (st : RedisState) (e : String) :
    (RedisService.incrementSeats st e).1.reservationExpired =
      st.reservationExpired := rfl

theorem removeActiveUser_reservationExpired (st : RedisState) (e u : String) :
    (RedisService.removeActiveUser st e u).reservationExpired =
      st.reservationExpired := by
  unfold RedisService.removeActiveUser
  cases st.active e u <;> rfl

theorem sumBy_set_eq {α : Type} (f : α → Int) (l : List α) (i : Nat)
    (a x : α) (h : l.get? i = some a) (hfx : f x = f a) :
    sumBy f (l.set i x) = sumBy f l := by
  rw [sumBy_set f l i a x h, hfx]
  ring

/-! ## Claim theorems -/

/-- C1: no oversell.  For an event initialised with N seats and any
interleaving of M promotion attempts running the decrement-first protocol
of `promoteNextUser`, the number of attempts that returned success is at
most N, and whenever no attempt sits between its DECR and the sold-out
compensating INCR (the only transient window), the seat counter is
non-negative. -/
theorem no_oversell_promoteNextUser (N M : Nat) (sched : List (Nat × Bool)) :
    sumBy promotedFlag (promRun (initPromState N M) sched).ops ≤ (N : Int) ∧
      (sumBy pendingCompFlag (promRun (initPromState N M) sched).ops = 0 →
        0 ≤ (promRun (initPromState N M) sched).seats) := by
  obtain ⟨h1, h2⟩ :=
    promRun_inv N (initPromState N M) sched (initPromState_inv N M)
  constructor
  · have hmono : sumBy promotedFlag (promRun (initPromState N M) sched).ops ≤
        sumBy seatTaken (promRun (initPromState N M) sched).ops :=
      sumBy_mono _ _ _ (by intro p; cases p <;> simp [promotedFlag, seatTaken])
    exact le_trans hmono h2
  · intro hp
    have hsplit : sumBy seatHold (promRun (initPromState N M) sched).ops =
        sumBy seatTaken (promRun (initPromState N M) sched).ops +
          sumBy pendingCompFlag (promRun (initPromState N M) sched).ops :=
      sumBy_add_pointwise _ _ _ _
        (by intro p; cases p <;> simp [seatHold, seatTaken, pendingCompFlag])
    rw [h1, hsplit, hp]
    omega

/-- C6 counterexample: the ledger's `addToQueue` does NOT have
set-if-absent semantics — re-adding an existing member replaces its score
with the current instant (plain ZADD, no NX flag): alice joined with score
100, and a second `addToQueue` at instant 200 rewrites her score to 200. -/
theorem addToQueue_updates_existing_score :
    zscore (c6Redis.queue "EV") "alice" = some 100 ∧
      zscore ((RedisService.addToQueue c6Redis "EV" "alice" 200).1.queue "EV")
          "alice" = some 200 ∧
      (some 200 : Option Nat) ≠ some 100 := by
  refine ⟨rfl, rfl, by decide⟩

/-- C6 amended: `addToQueue` performs a plain ZADD — the member ends up
present with its score set (or reset) to the current instant, every other
member's score is untouched, other events' queues are untouched, and the
returned position is the member's 1-based rank by score in the updated
set. -/
theorem addToQueue_spec (st : RedisState) (eventId userId : String)
    (now : Nat) :
    zscore ((RedisService.addToQueue st eventId userId now).1.queue eventId)
        userId = some now ∧
      (∀ v, v ≠ userId →
        zscore ((RedisService.addToQueue st eventId userId now).1.queue eventId) v
          = zscore (st.queue eventId) v) ∧
      (∀ e, e ≠ eventId →
        (RedisService.addToQueue st eventId userId now).1.queue e =
          st.queue e) ∧
      (∃ r, zrank ((RedisService.addToQueue st eventId userId now).1.queue
          eventId) userId = some r ∧
        (RedisService.addToQueue st eventId userId now).2 = r + 1) := by
  obtain ⟨r, hr⟩ := zrank_zadd_isSome (st.queue eventId) userId now
  refine ⟨?_, ?_, ?_, r, ?_, ?_⟩
  · simp [RedisService.addToQueue, hr, zscore_zadd_self]
  · intro v hv
    simp [RedisService.addToQueue, hr, zscore_zadd_other _ _ _ _ hv]
  · intro e he
    simp [RedisService.addToQueue, hr, he]
  · simp [RedisService.addToQueue, hr]
  · simp [RedisService.addToQueue, hr]

/-- C8: window enforcement.  `joinQueue` is accepted exactly when
`salesStartAt ≤ now ≤ salesEndAt`; outside the window it fails with the
corresponding out-of-window error and leaves the whole state untouched. -/
theorem joinQueue_window_enforcement (st : SysState) (ev : Event)
    (userId : String) (now : Nat) :
    ((∃ r, (QueueService.joinQueue st ev userId now).2 = .ok r) ↔
        (ev.salesStartAt ≤ now ∧ now ≤ ev.salesEndAt)) ∧
      (now < ev.salesStartAt →
        QueueService.joinQueue st ev userId now =
          (st, .error (.badRequest "Sales have not started yet"))) ∧
      (ev.salesStartAt ≤ now → ev.salesEndAt < now →
        QueueService.joinQueue st ev userId now =
          (st, .error (.badRequest "Sales have ended"))) := by
  refine ⟨⟨?_, ?_⟩, ?_, ?_⟩
  · intro ⟨r, hr⟩
    by_cases h1 : now < ev.salesStartAt
    · simp [QueueService.joinQueue, h1] at hr
    · by_cases h2 : ev.salesEndAt < now
      · simp [QueueService.joinQueue, h1, h2] at hr
      · omega
  · intro ⟨h1, h2⟩
    have h1' : ¬ now < ev.salesStartAt := by omega
    have h2' : ¬ ev.salesEndAt < now := by omega
    cases he : st.db.queueEntries ev.id userId with
    | some entry =>
      exact ⟨{ position := (RedisService.getQueuePosition st.redis ev.id
                   userId).getD entry.position,
               status := entry.status, eventId := ev.id,
               message := "Already in queue" },
             by simp [QueueService.joinQueue, h1', h2', he]⟩
    | none =>
      exact ⟨{ position := (RedisService.addToQueue st.redis ev.id userId now).2,
               status := .WAITING, eventId := ev.id,
               message := "Successfully joined queue" },
             by simp [QueueService.joinQueue, h1', h2', he]⟩
  · intro h1
    simp [QueueService.joinQueue, h1]
  · intro h0 h2
    have h1' : ¬ now < ev.salesStartAt := by omega
    simp [QueueService.joinQueue, h1', h2]

/-- C3 counterexample: the admit-branch queue-entry update is NOT
conditional on the entry being WAITING.  In `promotedSys` the entry is
already ACTIVE (a first promoter won), yet the update still affects one
row, a second `handleSuccessfulPromotion` for the same head still reports
success, overwrites the winner's reservation link with its own, and never
increments the seat counter back. -/
theorem promotion_update_not_conditional :
    (promotedSys.db.queueEntries "E1" "U1").map QueueEntry.status =
        some .ACTIVE ∧
      (promotedSys.db.updateQueueEntry "E1" "U1"
          (fun q => { q with status := .ACTIVE,
                             reservationId := some "R2" })).2 = 1 ∧
      (QueueService.handleSuccessfulPromotion promotedSys "E1" "U1" "R2" 500
          false).2 =
        .ok { success := true, userId := "U1",
              reservation := some { id := "R2", eventId := "E1",
                                    userId := "U1",
                                    status := .PENDING_PAYMENT,
                                    expiresAt := 300500, paidAt := none },
              reason := some .promoted } ∧
      (QueueService.handleSuccessfulPromotion promotedSys "E1" "U1" "R2" 500
          false).1.db.queueEntries "E1" "U1" =
        some { eventId := "E1", userId := "U1", status := .ACTIVE,
               position := 1, reservationId := some "R2" } ∧
      (QueueService.handleSuccessfulPromotion promotedSys "E1" "U1" "R2" 500
          false).1.redis.remainingSeats "E1" =
        promotedSys.redis.remainingSeats "E1" := by
  refine ⟨rfl, rfl, rfl, rfl, rfl⟩

/-- C3 amended: the admit-branch queue-entry update is keyed by
(event, user) only and applies whatever the entry's current status is; the
promoter never inspects the affected-row count, always reports success,
and never restores its decrement in the admit branch (the only
compensation there is for reservation-creation failure). -/
theorem promotion_update_unconditional (st : SysState) (e u rid : String)
    (now : Nat) (qe : QueueEntry)
    (hentry : st.db.queueEntries e u = some qe) :
    (st.db.updateQueueEntry e u
        (fun q => { q with status := .ACTIVE,
                           reservationId := some rid })).2 = 1 ∧
      (∃ res, (QueueService.handleSuccessfulPromotion st e u rid now false).2 =
          .ok { success := true, userId := u, reservation := some res,
                reason := some .promoted }) ∧
      (QueueService.handleSuccessfulPromotion st e u rid now
          false).1.db.queueEntries e u =
        some { qe with status := .ACTIVE, reservationId := some rid } ∧
      (QueueService.handleSuccessfulPromotion st e u rid now
          false).1.redis.remainingSeats e = st.redis.remainingSeats e := by
  refine ⟨?_, ⟨{ id := rid, eventId := e, userId := u,
                 status := .PENDING_PAYMENT,
                 expiresAt := now + RESERVATION_TTL_SECONDS * 1000,
                 paidAt := none }, ?_⟩, ?_, ?_⟩
  · simp [DbState.updateQueueEntry, hentry]
  · simp [QueueService.handleSuccessfulPromotion,
      ReservationsService.createReservation]
  · simp [QueueService.handleSuccessfulPromotion,
      ReservationsService.createReservation, DbState.updateQueueEntry,
      DbState.saveReservation, hentry]
  · simp [QueueService.handleSuccessfulPromotion,
      ReservationsService.createReservation, RedisService.removeFromQueue,
      RedisService.setActiveUser]

theorem promotion_update_unconditional_witness :
    (waitingSys.db.updateQueueEntry "E1" "U1"
        (fun q => { q with status := .ACTIVE,
                           reservationId := some "R9" })).2 = 1 ∧
      (∃ res, (QueueService.handleSuccessfulPromotion waitingSys "E1" "U1"
          "R9" 700 false).2 =
          .ok { success := true, userId := "U1", reservation := some res,
                reason := some .promoted }) ∧
      (QueueService.handleSuccessfulPromotion waitingSys "E1" "U1" "R9" 700
          false).1.db.queueEntries "E1" "U1" =
        some { eventId := "E1", userId := "U1", status := .ACTIVE,
               position := 1, reservationId := some "R9" } ∧
      (QueueService.handleSuccessfulPromotion waitingSys "E1" "U1" "R9" 700
          false).1.redis.remainingSeats "E1" =
        waitingSys.redis.remainingSeats "E1" :=
  promotion_update_unconditional waitingSys "E1" "U1" "R9" 700
    { eventId := "E1", userId := "U1", status := .WAITING, position := 1,
      reservationId := none } rfl

/-- C5: compensation on the decrement-first protocol.  With user u at the
head of the queue and a durable entry present: (i) when the DECR goes
negative, `promoteNextUser` restores the counter, marks the entry EXPIRED,
removes u from the queue set and reports sold-out; (ii) when the DECR is
non-negative but reservation creation fails, the counter is restored, the
error propagates, and the entry and queue set are left untouched; (iii) on
the success path the created reservation's deadline is now + 5 minutes. -/
theorem promoteNextUser_compensation (st : SysState) (e u rid : String)
    (now : Nat) (qe : QueueEntry) (b : Bool)
    (hhead : RedisService.getNextInQueue st.redis e = some u)
    (hentry : st.db.queueEntries e u = some qe) :
    (st.redis.remainingSeats e ≤ 0 →
      (QueueService.promoteNextUser st e rid now b).2 =
          .ok { success := false, userId := u, reservation := none,
                reason := some .sold_out } ∧
        (QueueService.promoteNextUser st e rid now b).1.redis.remainingSeats e
          = st.redis.remainingSeats e ∧
        (QueueService.promoteNextUser st e rid now b).1.db.queueEntries e u =
          some { qe with status := .EXPIRED } ∧
        zscore ((QueueService.promoteNextUser st e rid now b).1.redis.queue e)
          u = none) ∧
    (1 ≤ st.redis.remainingSeats e →
      (QueueService.promoteNextUser st e rid now true).2 =
          .error (.internal "Failed to create reservation") ∧
        (QueueService.promoteNextUser st e rid now
            true).1.redis.remainingSeats e = st.redis.remainingSeats e ∧
        (QueueService.promoteNextUser st e rid now true).1.db.queueEntries e u
          = some qe ∧
        (QueueService.promoteNextUser st e rid now true).1.redis.queue e =
          st.redis.queue e) ∧
    (1 ≤ st.redis.remainingSeats e →
      ∃ res, (QueueService.promoteNextUser st e rid now false).2 =
          .ok { success := true, userId := u, reservation := some res,
                reason := some .promoted } ∧
        res.expiresAt = now + 300000) := by
  refine ⟨?_, ?_, ?_⟩
  · intro hs
    have hneg : ¬ (0 ≤ st.redis.remainingSeats e - 1) := by omega
    refine ⟨?_, ?_, ?_, ?_⟩ <;>
      simp [QueueService.promoteNextUser, hhead, RedisService.decrementSeats,
        hneg, QueueService.handleSoldOut, RedisService.incrementSeats,
        RedisService.removeFromQueue, DbState.updateQueueEntry, hentry,
        zscore_zrem_self]
  · intro hs
    have hpos : (0 ≤ st.redis.remainingSeats e - 1) := by omega
    refine ⟨?_, ?_, ?_, ?_⟩ <;>
      simp [QueueService.promoteNextUser, hhead, RedisService.decrementSeats,
        hpos, QueueService.handleSuccessfulPromotion,
        RedisService.incrementSeats, hentry]
  · intro hs
    have hpos : (0 ≤ st.redis.remainingSeats e - 1) := by omega
    refine ⟨{ id := rid, eventId := e, userId := u,
              status := .PENDING_PAYMENT, expiresAt := now + 300000,
              paidAt := none }, ?_, rfl⟩
    simp [QueueService.promoteNextUser, hhead, RedisService.decrementSeats,
      hpos, QueueService.handleSuccessfulPromotion,
      ReservationsService.createReservation, RESERVATION_TTL_SECONDS]

theorem promoteNextUser_compensation_witness :
    1 ≤ waitingSys.redis.remainingSeats "E1" ∧
      ∃ res, (QueueService.promoteNextUser waitingSys "E1" "R9" 700 false).2 =
          .ok { success := true, userId := "U1", reservation := some res,
                reason := some .promoted } ∧
        res.expiresAt = 700 + 300000 :=
  ⟨by decide,
   (promoteNextUser_compensation waitingSys "E1" "U1" "R9" 700
      { eventId := "E1", userId := "U1", status := .WAITING, position := 1,
        reservationId := none } false rfl rfl).2.2 (by decide)⟩

/-- C9: payment frame.  A successful `processPayment` leaves the whole
ledger (every Redis key) and the delayed-job queue untouched; its only
state changes are the reservation row (now PAID with paid instant = now)
and the matching queue entry (now DONE); all other reservations and
entries are unchanged. -/
theorem processPayment_frame (st : SysState) (rid u : String) (now : Nat)
    (r : Reservation)
    (hid : ∀ x, st.db.reservations rid = some x → x.id = rid)
    (hok : (ReservationsService.processPayment st rid u now).2 = .ok r) :
    (ReservationsService.processPayment st rid u now).1.redis = st.redis ∧
      r.status = .PAID ∧
      r.paidAt = some now ∧
      (ReservationsService.processPayment st rid u now).1.db.reservations rid
        = some r ∧
      (∀ i, i ≠ rid →
        (ReservationsService.processPayment st rid u now).1.db.reservations i
          = st.db.reservations i) ∧
      (ReservationsService.processPayment st rid u now).1.db.queueEntries
          r.eventId r.userId =
        (st.db.queueEntries r.eventId r.userId).map
          (fun qe => { qe with status := .DONE }) ∧
      (∀ e u2, ¬ (e = r.eventId ∧ u2 = r.userId) →
        (ReservationsService.processPayment st rid u now).1.db.queueEntries e
            u2 = st.db.queueEntries e u2) ∧
      (ReservationsService.processPayment st rid u now).1.expirationJobs =
        st.expirationJobs := by
  cases hres : st.db.reservations rid with
  | none => simp [ReservationsService.processPayment, hres] at hok
  | some resv =>
    have hrid : resv.id = rid := hid resv hres
    by_cases h1 : resv.userId ≠ u
    · simp [ReservationsService.processPayment, hres, h1] at hok
    · by_cases h2 : resv.status ≠ .PENDING_PAYMENT
      · simp [ReservationsService.processPayment, hres, h1, h2] at hok
      · by_cases h3 : resv.expiresAt < now
        · simp [ReservationsService.processPayment, hres, h1, h2, h3] at hok
        · have hr : r = { resv with status := .PAID, paidAt := some now } := by
            have := hok
            simp [ReservationsService.processPayment, hres, h1, h2, h3]
              at this
            exact this.symm
          subst hr
          have hresult : ReservationsService.processPayment st rid u now =
              ({ st with
                 db := ((st.db.saveReservation
                       { resv with status := .PAID,
                                   paidAt := some now }).updateQueueEntry
                     resv.eventId resv.userId
                     (fun qe => { qe with status := .DONE })).1
                 notices := st.notices ++
                   [.paymentSuccess resv.userId rid] },
               .ok { resv with status := .PAID, paidAt := some now }) := by
            simp [ReservationsService.processPayment, hres, h1, h2, h3]
          refine ⟨?_, rfl, rfl, ?_, ?_, ?_, ?_, ?_⟩
          · rw [hresult]
          · rw [hresult]
            dsimp only
            rw [updateQueueEntry_reservations, ← hrid]
            exact saveReservation_self _ _
          · intro i hi
            rw [hresult]
            dsimp only
            rw [updateQueueEntry_reservations]
            exact saveReservation_other _ _ _ (by simpa [hrid] using hi)
          · rw [hresult]
            dsimp only
            rw [updateQueueEntry_self, saveReservation_queueEntries]
          · intro e u2 hne
            rw [hresult]
            dsimp only
            dsimp only at hne
            rw [updateQueueEntry_other _ _ _ _ _ _ hne,
              saveReservation_queueEntries]
          · rw [hresult]

theorem processPayment_frame_witness :
    (ReservationsService.processPayment promotedSys "R1" "U1" 500).1.redis =
        promotedSys.redis ∧
      ({ sampleReservation with status := .PAID,
                                paidAt := some 500 } : Reservation).status =
        .PAID ∧
      (ReservationsService.processPayment promotedSys "R1" "U1"
          500).1.db.reservations "R1" =
        some { sampleReservation with status := .PAID, paidAt := some 500 } :=
  have h := processPayment_frame promotedSys "R1" "U1" 500
    { sampleReservation with status := .PAID, paidAt := some 500 }
    (fun x hx => by
      have hs : sampleReservation = x := Option.some.inj hx
      rw [← hs]
      rfl)
    rfl
  ⟨h.1, h.2.1, h.2.2.2.1⟩

/-- C10: position fallback at the public interface.  With a durable entry
present, both `getQueueStatus` and `joinQueue` report
`ledger rank (1-based)` while the user is still a member of the queue
sorted set, and fall back to the position recorded at join time — never an
absence error — once the user has been removed. -/
theorem position_fallback (st : SysState) (ev : Event) (u : String)
    (qe : QueueEntry) (now : Nat)
    (hentry : st.db.queueEntries ev.id u = some qe)
    (h1 : ev.salesStartAt ≤ now) (h2 : now ≤ ev.salesEndAt) :
    QueueService.getQueueStatus st ev.id u =
        .ok { position :=
                (RedisService.getQueuePosition st.redis ev.id u).getD
                  qe.position,
              status := qe.status, eventId := ev.id } ∧
      QueueService.joinQueue st ev u now =
        (st, .ok { position :=
                     (RedisService.getQueuePosition st.redis ev.id u).getD
                       qe.position,
                   status := qe.status, eventId := ev.id,
                   message := "Already in queue" }) ∧
      (∀ r, zrank (st.redis.queue ev.id) u = some r →
        (RedisService.getQueuePosition st.redis ev.id u).getD qe.position =
          r + 1) ∧
      (zrank (st.redis.queue ev.id) u = none →
        (RedisService.getQueuePosition st.redis ev.id u).getD qe.position =
          qe.position) := by
  have h1' : ¬ now < ev.salesStartAt := by omega
  have h2' : ¬ ev.salesEndAt < now := by omega
  refine ⟨?_, ?_, ?_, ?_⟩
  · simp [QueueService.getQueueStatus, hentry]
  · simp [QueueService.joinQueue, h1', h2', hentry]
  · intro r hr
    simp [RedisService.getQueuePosition, hr]
  · intro hr
    simp [RedisService.getQueuePosition, hr]

theorem position_fallback_witness :
    QueueService.getQueueStatus promotedSys "E1" "U1" =
        .ok { position := 1, status := .ACTIVE, eventId := "E1" } ∧
      zrank (promotedSys.redis.queue "E1") "U1" = none :=
  have h := position_fallback promotedSys
    { id := "E1", totalSeats := 1, salesStartAt := 0, salesEndAt := 1000000 }
    "U1" sampleEntryActive 500 rfl (by decide) (by decide)
  ⟨h.1, rfl⟩

/-- C2 counterexample: neither transition is a conditional update, and the
claimed exclusivity fails under interleaving.  Starting from a
PENDING_PAYMENT reservation, the schedule "expiration reads PENDING,
payment completes, expiration finishes" lets BOTH operations commit: the
payment reaches `doneOk`, the expiration reaches `doneExpired` (restoring
the seat), and the reservation row observably holds PAID and then
EXPIRED. -/
theorem payment_expiration_both_commit :
    (raceRun "R1" "U1" 500 raceInit raceSchedule).pay = .doneOk ∧
      (raceRun "R1" "U1" 500 raceInit raceSchedule).expn = .doneExpired ∧
      (raceRun "R1" "U1" 500 raceInit raceSchedule).statusHistory =
        [.PAID, .EXPIRED] ∧
      ((raceRun "R1" "U1" 500 raceInit raceSchedule).sys.db.reservations
          "R1").map Reservation.status = some .EXPIRED := by
  refine ⟨rfl, rfl, rfl, rfl⟩

/-- C2 amended: both transitions are guarded by a read-then-check of
PENDING_PAYMENT (payment re-saves a snapshot checked in memory;
expiration checks the row and takes a set-if-absent fence) rather than by
conditional updates, so in any serialized execution of one payment and
one expiration exactly one succeeds: whichever runs first wins, and the
later operation observes the terminal status and refuses without touching
the row.  (Exclusivity under arbitrary interleavings does NOT hold; see
the counterexample.) -/
theorem payment_expiration_serialized (st : SysState) (rid u : String)
    (now : Nat) (r : Reservation)
    (hres : st.db.reservations rid = some r) (hrid : r.id = rid)
    (hst : r.status = .PENDING_PAYMENT) (hu : r.userId = u)
    (hdl : ¬ r.expiresAt < now)
    (hfence : st.redis.reservationExpired rid = none) :
    ((ReservationsService.processPayment st rid u now).2 =
        .ok { r with status := .PAID, paidAt := some now } ∧
      (ReservationsService.expireReservation
          (ReservationsService.processPayment st rid u now).1 rid).2 =
        ⟨false, .not_pending⟩ ∧
      ((ReservationsService.expireReservation
            (ReservationsService.processPayment st rid u now).1
            rid).1.db.reservations rid).map Reservation.status =
        some .PAID) ∧
    ((ReservationsService.expireReservation st rid).2 = ⟨true, .expired⟩ ∧
      (ReservationsService.processPayment
          (ReservationsService.expireReservation st rid).1 rid u now).2 =
        .error (.badRequest
          "Cannot process payment for reservation with this status") ∧
      ((ReservationsService.processPayment
            (ReservationsService.expireReservation st rid).1 rid u
            now).1.db.reservations rid).map Reservation.status =
        some .EXPIRED) := by
  have h1 : ¬ (r.userId ≠ u) := by simp [hu]
  have h2 : ¬ (r.status ≠ ReservationStatus.PENDING_PAYMENT) := by simp [hst]
  have hpay : ReservationsService.processPayment st rid u now =
      ({ st with
         db := ((st.db.saveReservation
               { r with status := .PAID, paidAt := some now }).updateQueueEntry
             r.eventId r.userId
             (fun qe => { qe with status := .DONE })).1
         notices := st.notices ++ [.paymentSuccess r.userId rid] },
       .ok { r with status := .PAID, paidAt := some now }) := by
    simp [ReservationsService.processPayment, hres, h1, h2, hdl]
  have hlook1 : (ReservationsService.processPayment st rid u
      now).1.db.reservations rid =
      some { r with status := .PAID, paidAt := some now } := by
    rw [hpay]
    dsimp only
    rw [updateQueueEntry_reservations, ← hrid]
    exact saveReservation_self _ _
  have hexpAfter : ReservationsService.expireReservation
      (ReservationsService.processPayment st rid u now).1 rid =
      ((ReservationsService.processPayment st rid u now).1,
       ⟨false, .not_pending⟩) := by
    simp [ReservationsService.expireReservation, hlook1]
  have hexp : ReservationsService.expireReservation st rid =
      ({ st with
         redis := RedisService.removeActiveUser
           (RedisService.incrementSeats
             ({ st.redis with reservationExpired := fun i =>
                 if i = rid then some (some 3600)
                 else st.redis.reservationExpired i }) r.eventId).1
           r.eventId r.userId
         db := (((st.db.updateReservation rid
               (fun x => { x with status := .EXPIRED })).1.updateQueueEntry
             r.eventId r.userId
             (fun qe => { qe with status := .EXPIRED })).1)
         notices := st.notices ++ [.reservationExpired r.userId rid] },
       ⟨true, .expired⟩) := by
    simp [ReservationsService.expireReservation, hres, h2,
      RedisService.setReservationExpired, hfence]
  have hlook2 : (ReservationsService.expireReservation st
      rid).1.db.reservations rid = some { r with status := .EXPIRED } := by
    rw [hexp]
    dsimp only
    rw [updateQueueEntry_reservations, updateReservation_self, hres]
    rfl
  have h1' : ¬ (({ r with status := ReservationStatus.EXPIRED }
      : Reservation).userId ≠ u) := by simpa using h1
  have hpayAfter : ReservationsService.processPayment
      (ReservationsService.expireReservation st rid).1 rid u now =
      ((ReservationsService.expireReservation st rid).1,
       .error (.badRequest
         "Cannot process payment for reservation with this status")) := by
    simp [ReservationsService.processPayment, hlook2, h1']
  refine ⟨⟨?_, ?_, ?_⟩, ?_, ?_, ?_⟩
  · rw [hpay]
  · rw [hexpAfter]
  · rw [hexpAfter]
    dsimp only
    rw [hlook1]
    rfl
  · rw [hexp]
  · rw [hpayAfter]
  · rw [hpayAfter]
    dsimp only
    rw [hlook2]
    rfl

theorem payment_expiration_serialized_witness :
    (ReservationsService.processPayment promotedSys "R1" "U1" 500).2 =
        .ok { sampleReservation with status := .PAID, paidAt := some 500 } ∧
      (ReservationsService.expireReservation promotedSys "R1").2 =
        ⟨true, .expired⟩ :=
  have h := payment_expiration_serialized promotedSys "R1" "U1" 500
    sampleReservation rfl rfl rfl rfl (by decide) rfl
  ⟨h.1.1, h.2.1⟩

theorem expInv_congr (resId : String) (s' s : ExpRun)
    (hw : sumBy expWinnerFlag s'.threads = sumBy expWinnerFlag s.threads)
    (hi : sumBy expPastIncrFlag s'.threads = sumBy expPastIncrFlag s.threads)
    (hwr : sumBy expPastWriteFlag s'.threads =
      sumBy expPastWriteFlag s.threads)
    (hc1 : s'.fenceTrueCount = s.fenceTrueCount)
    (hc2 : s'.seatIncrCount = s.seatIncrCount)
    (hc3 : s'.expiredWriteCount = s.expiredWriteCount)
    (hf : s'.sys.redis.reservationExpired resId =
      s.sys.redis.reservationExpired resId)
    (h : expInv resId s) : expInv resId s' := by
  obtain ⟨c1, c2, c3, c4, c5, c6⟩ := h
  refine ⟨?_, ?_, ?_, ?_, ?_, ?_⟩
  · rw [hw, hc1]; exact c1
  · rw [hi, hc2]; exact c2
  · rw [hwr, hc3]; exact c3
  · rw [hw]; exact c4
  · rw [hf, hw]; exact c5
  · rw [hf, hw]; exact c6

theorem expStep_inv (resId : String) (s : ExpRun) (i : Nat)
    (h : expInv resId s) : expInv resId (expStep resId s i) := by
  obtain ⟨c1, c2, c3, c4, c5, c6⟩ := h
  unfold expStep
  cases hg : s.threads.get? i with
  | none => exact ⟨c1, c2, c3, c4, c5, c6⟩
  | some ph =>
    cases ph with
    | start =>
      cases hr : s.sys.db.reservations resId with
      | none =>
        exact expInv_congr resId _ s (sumBy_set_eq _ _ _ _ _ hg rfl)
          (sumBy_set_eq _ _ _ _ _ hg rfl) (sumBy_set_eq _ _ _ _ _ hg rfl)
          rfl rfl rfl rfl ⟨c1, c2, c3, c4, c5, c6⟩
      | some reservation =>
        by_cases hs : reservation.status ≠ ReservationStatus.PENDING_PAYMENT
        · dsimp only
          rw [if_pos hs]
          exact expInv_congr resId _ s (sumBy_set_eq _ _ _ _ _ hg rfl)
            (sumBy_set_eq _ _ _ _ _ hg rfl) (sumBy_set_eq _ _ _ _ _ hg rfl)
            rfl rfl rfl rfl ⟨c1, c2, c3, c4, c5, c6⟩
        · dsimp only
          rw [if_neg hs]
          exact expInv_congr resId _ s (sumBy_set_eq _ _ _ _ _ hg rfl)
            (sumBy_set_eq _ _ _ _ _ hg rfl) (sumBy_set_eq _ _ _ _ _ hg rfl)
            rfl rfl rfl rfl ⟨c1, c2, c3, c4, c5, c6⟩
    | preFence snap =>
      unfold RedisService.setReservationExpired
      cases hf : s.sys.redis.reservationExpired resId with
      | some f =>
        exact expInv_congr resId _ s (sumBy_set_eq _ _ _ _ _ hg rfl)
          (sumBy_set_eq _ _ _ _ _ hg rfl) (sumBy_set_eq _ _ _ _ _ hg rfl)
          rfl rfl rfl rfl ⟨c1, c2, c3, c4, c5, c6⟩
      | none =>
        have hw0 : sumBy expWinnerFlag s.threads = 0 := c5 hf
        have hsum : sumBy expWinnerFlag (s.threads.set i (.preIncr snap)) =
            sumBy expWinnerFlag s.threads + 1 := by
          rw [sumBy_set _ _ _ _ _ hg]
          simp [expWinnerFlag]
        refine ⟨?_, ?_, ?_, ?_, ?_, ?_⟩
        · show ((s.fenceTrueCount + 1 : Nat) : Int) =
            sumBy expWinnerFlag (s.threads.set i (.preIncr snap))
          rw [hsum]
          push_cast
          omega
        · show (s.seatIncrCount : Int) =
            sumBy expPastIncrFlag (s.threads.set i (.preIncr snap))
          rw [sumBy_set_eq _ _ _ _ (.preIncr snap) hg rfl]
          exact c2
        · show (s.expiredWriteCount : Int) =
            sumBy expPastWriteFlag (s.threads.set i (.preIncr snap))
          rw [sumBy_set_eq _ _ _ _ (.preIncr snap) hg rfl]
          exact c3
        · show sumBy expWinnerFlag (s.threads.set i (.preIncr snap)) ≤ 1
          rw [hsum, hw0]
          norm_num
        · show (if resId = resId then some (some 3600)
              else s.sys.redis.reservationExpired resId) = none →
            sumBy expWinnerFlag (s.threads.set i (.preIncr snap)) = 0
          intro hn
          simp at hn
        · show 1 ≤ sumBy expWinnerFlag (s.threads.set i (.preIncr snap)) →
            (if resId = resId then some (some 3600)
              else s.sys.redis.reservationExpired resId) = some (some 3600)
          intro _
          simp
    | preIncr snap =>
      have hsum : sumBy expPastIncrFlag
          (s.threads.set i (.preUpdateRes snap)) =
          sumBy expPastIncrFlag s.threads + 1 := by
        rw [sumBy_set _ _ _ _ _ hg]
        simp [expPastIncrFlag]
      refine ⟨?_, ?_, ?_, ?_, ?_, ?_⟩
      · show (s.fenceTrueCount : Int) =
          sumBy expWinnerFlag (s.threads.set i (.preUpdateRes snap))
        rw [sumBy_set_eq _ _ _ _ (.preUpdateRes snap) hg rfl]
        exact c1
      · show ((s.seatIncrCount + 1 : Nat) : Int) =
          sumBy expPastIncrFlag (s.threads.set i (.preUpdateRes snap))
        rw [hsum]
        push_cast
        omega
      · show (s.expiredWriteCount : Int) =
          sumBy expPastWriteFlag (s.threads.set i (.preUpdateRes snap))
        rw [sumBy_set_eq _ _ _ _ (.preUpdateRes snap) hg rfl]
        exact c3
      · show sumBy expWinnerFlag (s.threads.set i (.preUpdateRes snap)) ≤ 1
        rw [sumBy_set_eq _ _ _ _ (.preUpdateRes snap) hg rfl]
        exact c4
      · show s.sys.redis.reservationExpired resId = none →
          sumBy expWinnerFlag (s.threads.set i (.preUpdateRes snap)) = 0
        rw [sumBy_set_eq _ _ _ _ (.preUpdateRes snap) hg rfl]
        exact c5
      · show 1 ≤ sumBy expWinnerFlag (s.threads.set i (.preUpdateRes snap)) →
          s.sys.redis.reservationExpired resId = some (some 3600)
        rw [sumBy_set_eq _ _ _ _ (.preUpdateRes snap) hg rfl]
        exact c6
    | preUpdateRes snap =>
      have hsum : sumBy expPastWriteFlag
          (s.threads.set i (.preUpdateEntry snap)) =
          sumBy expPastWriteFlag s.threads + 1 := by
        rw [sumBy_set _ _ _ _ _ hg]
        simp [expPastWriteFlag]
      refine ⟨?_, ?_, ?_, ?_, ?_, ?_⟩
      · show (s.fenceTrueCount : Int) =
          sumBy expWinnerFlag (s.threads.set i (.preUpdateEntry snap))
        rw [sumBy_set_eq _ _ _ _ (.preUpdateEntry snap) hg rfl]
        exact c1
      · show (s.seatIncrCount : Int) =
          sumBy expPastIncrFlag (s.threads.set i (.preUpdateEntry snap))
        rw [sumBy_set_eq _ _ _ _ (.preUpdateEntry snap) hg rfl]
        exact c2
      · show ((s.expiredWriteCount + 1 : Nat) : Int) =
          sumBy expPastWriteFlag (s.threads.set i (.preUpdateEntry snap))
        rw [hsum]
        push_cast
        omega
      · show sumBy expWinnerFlag (s.threads.set i (.preUpdateEntry snap)) ≤ 1
        rw [sumBy_set_eq _ _ _ _ (.preUpdateEntry snap) hg rfl]
        exact c4
      · show s.sys.redis.reservationExpired resId = none →
          sumBy expWinnerFlag (s.threads.set i (.preUpdateEntry snap)) = 0
        rw [sumBy_set_eq _ _ _ _ (.preUpdateEntry snap) hg rfl]
        exact c5
      · show 1 ≤ sumBy expWinnerFlag (s.threads.set i (.preUpdateEntry snap)) →
          s.sys.redis.reservationExpired resId = some (some 3600)
        rw [sumBy_set_eq _ _ _ _ (.preUpdateEntry snap) hg rfl]
        exact c6
    | preUpdateEntry snap =>
      exact expInv_congr resId _ s (sumBy_set_eq _ _ _ _ _ hg rfl)
        (sumBy_set_eq _ _ _ _ _ hg rfl) (sumBy_set_eq _ _ _ _ _ hg rfl)
        rfl rfl rfl rfl ⟨c1, c2, c3, c4, c5, c6⟩
    | preClearActive snap =>
      exact expInv_congr resId _ s (sumBy_set_eq _ _ _ _ _ hg rfl)
        (sumBy_set_eq _ _ _ _ _ hg rfl) (sumBy_set_eq _ _ _ _ _ hg rfl)
        rfl rfl rfl
        (congrFun (removeActiveUser_reservationExpired _ _ _) resId)
        ⟨c1, c2, c3, c4, c5, c6⟩
    | doneExpired => exact ⟨c1, c2, c3, c4, c5, c6⟩
    | doneNotFound => exact ⟨c1, c2, c3, c4, c5, c6⟩
    | doneNotPending => exact ⟨c1, c2, c3, c4, c5, c6⟩
    | doneAlready => exact ⟨c1, c2, c3, c4, c5, c6⟩

theorem expRunSched_inv (resId : String) (s : ExpRun) (sched : List Nat)
    (h : expInv resId s) : expInv resId (expRunSched resId s sched) := by
  induction sched generalizing s with
  | nil => exact h
  | cons i is ih => exact ih _ (expStep_inv resId s i h)

theorem initExpRun_inv (st : SysState) (n : Nat) (resId : String) :
    expInv resId (initExpRun st n) := by
  refine ⟨?_, ?_, ?_, ?_, ?_, ?_⟩
  · simp [initExpRun, sumBy_replicate, expWinnerFlag]
  · simp [initExpRun, sumBy_replicate, expPastIncrFlag]
  · simp [initExpRun, sumBy_replicate, expPastWriteFlag]
  · simp [initExpRun, sumBy_replicate, expWinnerFlag]
  · intro _
    simp [initExpRun, sumBy_replicate, expWinnerFlag]
  · intro hn
    simp [initExpRun, sumBy_replicate, expWinnerFlag] at hn

/-- C4: expiration idempotence.  For any number of concurrent (or
repeated) deliveries of the expiration of one reservation, under every
schedule: the seat counter is incremented at most once, the reservation
row is written EXPIRED at most once, `setReservationExpired` returns true
to at most one caller, a successful fence claim leaves the fence key set
with its one-hour ttl, and the sequential fence primitive returns true
with the ttl set on first claim and false afterwards. -/
theorem expiration_idempotent (st : SysState) (resId : String) (n : Nat)
    (sched : List Nat) :
    (expRunSched resId (initExpRun st n) sched).seatIncrCount ≤ 1 ∧
      (expRunSched resId (initExpRun st n) sched).expiredWriteCount ≤ 1 ∧
      (expRunSched resId (initExpRun st n) sched).fenceTrueCount ≤ 1 ∧
      (1 ≤ (expRunSched resId (initExpRun st n) sched).fenceTrueCount →
        (expRunSched resId (initExpRun st n)
            sched).sys.redis.reservationExpired resId = some (some 3600)) ∧
      (∀ st2 rid, st2.reservationExpired rid = none →
        (RedisService.setReservationExpired st2 rid).2 = true ∧
          (RedisService.setReservationExpired st2 rid).1.reservationExpired
            rid = some (some 3600) ∧
          (RedisService.setReservationExpired
              (RedisService.setReservationExpired st2 rid).1 rid).2 =
            false) := by
  obtain ⟨c1, c2, c3, c4, c5, c6⟩ :=
    expRunSched_inv resId (initExpRun st n) sched (initExpRun_inv st n resId)
  have hincr : sumBy expPastIncrFlag
      (expRunSched resId (initExpRun st n) sched).threads ≤
      sumBy expWinnerFlag (expRunSched resId (initExpRun st n)
        sched).threads :=
    sumBy_mono _ _ _
      (by intro p; cases p <;> simp [expPastIncrFlag, expWinnerFlag])
  have hwrite : sumBy expPastWriteFlag
      (expRunSched resId (initExpRun st n) sched).threads ≤
      sumBy expWinnerFlag (expRunSched resId (initExpRun st n)
        sched).threads :=
    sumBy_mono _ _ _
      (by intro p; cases p <;> simp [expPastWriteFlag, expWinnerFlag])
  refine ⟨?_, ?_, ?_, ?_, ?_⟩
  · have : ((expRunSched resId (initExpRun st n) sched).seatIncrCount : Int)
        ≤ 1 := by
      rw [c2]
      exact le_trans hincr c4
    exact_mod_cast this
  · have : ((expRunSched resId (initExpRun st n)
        sched).expiredWriteCount : Int) ≤ 1 := by
      rw [c3]
      exact le_trans hwrite c4
    exact_mod_cast this
  · have : ((expRunSched resId (initExpRun st n) sched).fenceTrueCount : Int)
        ≤ 1 := by
      rw [c1]
      exact c4
    exact_mod_cast this
  · intro hge
    apply c6
    rw [← c1]
    exact_mod_cast hge
  · intro st2 rid h
    refine ⟨?_, ?_, ?_⟩ <;> simp [RedisService.setReservationExpired, h]

/-- Once a durable entry for (event, user) exists that still reports a
stable position, every further in-window `joinQueue` call is a pure read:
the state is unchanged and the response repeats the same position. -/
theorem runJoins_stable (ev : Event) (u : String) (st1 : SysState) (p : Nat)
    (qe : QueueEntry)
    (hentry1 : st1.db.queueEntries ev.id u = some qe)
    (hpos1 : (RedisService.getQueuePosition st1.redis ev.id u).getD
      qe.position = p)
    (hstatus : qe.status = .WAITING) :
    ∀ ts : List Nat,
      (∀ t ∈ ts, ev.salesStartAt ≤ t ∧ t ≤ ev.salesEndAt) →
      runJoins st1 ev u ts =
        (st1, List.replicate ts.length
          (.ok { position := p, status := .WAITING, eventId := ev.id,
                 message := "Already in queue" })) := by
  intro ts
  induction ts with
  | nil => intro _; rfl
  | cons t ts ih =>
    intro hw
    obtain ⟨hw1, hw2⟩ := hw t (by simp)
    have h1' : ¬ t < ev.salesStartAt := by omega
    have h2' : ¬ ev.salesEndAt < t := by omega
    have hjoin : QueueService.joinQueue st1 ev u t =
        (st1, .ok { position := p, status := .WAITING, eventId := ev.id,
                    message := "Already in queue" }) := by
      simp [QueueService.joinQueue, h1', h2', hentry1, hpos1, hstatus]
    show (let (st', r) := QueueService.joinQueue st1 ev u t
          let (stF, rs) := runJoins st' ev u ts
          (stF, r :: rs)) = _
    rw [hjoin]
    have hrest := ih (fun t2 ht2 => hw t2 (by simp [ht2]))
    dsimp only
    rw [hrest]
    rfl

/-- C7: join idempotence.  Starting from a state with no durable entry and
no queue membership for (event, user), a first join at instant t1 (later
than every score already in the queue) followed by any number of in-window
retries: every call returns the same position (initial queue length + 1)
with status WAITING, the queue grows by exactly one member over the whole
history, and any call that finds a durable entry leaves the state — in
particular the ledger's queue set — completely untouched. -/
theorem joinQueue_idempotent (st : SysState) (ev : Event) (u : String)
    (t1 : Nat) (ts : List Nat)
    (hentry : st.db.queueEntries ev.id u = none)
    (hqueue : zscore (st.redis.queue ev.id) u = none)
    (hscores : ∀ x ∈ st.redis.queue ev.id, x.2 < t1)
    (hwin : ∀ t ∈ t1 :: ts, ev.salesStartAt ≤ t ∧ t ≤ ev.salesEndAt) :
    (∀ resp ∈ (runJoins st ev u (t1 :: ts)).2,
      resp.map JoinQueueResponse.position =
          .ok ((st.redis.queue ev.id).length + 1) ∧
        resp.map JoinQueueResponse.status = .ok .WAITING) ∧
      ((runJoins st ev u (t1 :: ts)).1.redis.queue ev.id).length =
        (st.redis.queue ev.id).length + 1 ∧
      (∀ st2 now2, (st2.db.queueEntries ev.id u).isSome →
        (QueueService.joinQueue st2 ev u now2).1 = st2) := by
  obtain ⟨hw1, hw2⟩ := hwin t1 (by simp)
  have h1' : ¬ t1 < ev.salesStartAt := by omega
  have h2' : ¬ ev.salesEndAt < t1 := by omega
  have hq' : zadd (st.redis.queue ev.id) t1 u =
      st.redis.queue ev.id ++ [(u, t1)] := by
    rw [zadd, zremove_eq_self_of_zscore_none _ _ hqueue,
      zinsert_append _ _ _ hscores]
  have hrank : zrank (zadd (st.redis.queue ev.id) t1 u) u =
      some (st.redis.queue ev.id).length := by
    rw [hq']
    exact zrank_append_self _ _ _ hqueue
  have hjoin1 : QueueService.joinQueue st ev u t1 =
      ({ st with
         redis := { st.redis with
           queue := fun e => if e = ev.id
             then zadd (st.redis.queue ev.id) t1 u
             else st.redis.queue e }
         db := st.db.saveQueueEntry
           { eventId := ev.id, userId := u, status := .WAITING,
             position := (st.redis.queue ev.id).length + 1,
             reservationId := none } },
       .ok { position := (st.redis.queue ev.id).length + 1,
             status := .WAITING, eventId := ev.id,
             message := "Successfully joined queue" }) := by
    simp [QueueService.joinQueue, h1', h2', hentry, RedisService.addToQueue,
      hrank]
  have hentry1 : (QueueService.joinQueue st ev u t1).1.db.queueEntries ev.id
      u = some { eventId := ev.id, userId := u, status := .WAITING,
                 position := (st.redis.queue ev.id).length + 1,
                 reservationId := none } := by
    rw [hjoin1]
    simp [DbState.saveQueueEntry]
  have hpos1 : (RedisService.getQueuePosition
      (QueueService.joinQueue st ev u t1).1.redis ev.id u).getD
      ({ eventId := ev.id, userId := u, status := QueueEntryStatus.WAITING,
         position := (st.redis.queue ev.id).length + 1,
         reservationId := none } : QueueEntry).position =
      (st.redis.queue ev.id).length + 1 := by
    rw [hjoin1]
    simp [RedisService.getQueuePosition, hrank]
  have hrest := runJoins_stable ev u (QueueService.joinQueue st ev u t1).1
    ((st.redis.queue ev.id).length + 1) _ hentry1 hpos1 rfl ts
    (fun t2 ht2 => hwin t2 (by simp [ht2]))
  refine ⟨?_, ?_, ?_⟩
  · intro resp hresp
    have hrun : (runJoins st ev u (t1 :: ts)).2 =
        (.ok { position := (st.redis.queue ev.id).length + 1,
               status := .WAITING, eventId := ev.id,
               message := "Successfully joined queue" }) ::
          List.replicate ts.length
            (.ok { position := (st.redis.queue ev.id).length + 1,
                   status := .WAITING, eventId := ev.id,
                   message := "Already in queue" }) := by
      show (let (st', r) := QueueService.joinQueue st ev u t1
            let (stF, rs) := runJoins st' ev u ts
            (stF, r :: rs)).2 = _
      rw [hjoin1]
      dsimp only
      rw [show QueueService.joinQueue st ev u t1 = _ from hjoin1] at hrest
      dsimp only at hrest
      rw [hrest]
    rw [hrun] at hresp
    rcases List.mem_cons.mp hresp with hcase | hcase
    · subst hcase
      exact ⟨rfl, rfl⟩
    · have := List.eq_of_mem_replicate hcase
      subst this
      exact ⟨rfl, rfl⟩
  · have hfin : (runJoins st ev u (t1 :: ts)).1 =
        (QueueService.joinQueue st ev u t1).1 := by
      show (let (st', r) := QueueService.joinQueue st ev u t1
            let (stF, rs) := runJoins st' ev u ts
            (stF, r :: rs)).1 = _
      rw [hjoin1] at hrest ⊢
      dsimp only at hrest ⊢
      rw [hrest]
    rw [hfin, hjoin1]
    simp [hq']
  · intro st2 now2 hsome
    by_cases ha : now2 < ev.salesStartAt
    · simp [QueueService.joinQueue, ha]
    · by_cases hb : ev.salesEndAt < now2
      · simp [QueueService.joinQueue, ha, hb]
      · cases he2 : st2.db.queueEntries ev.id u with
        | none => simp [he2] at hsome
        | some qe2 => simp [QueueService.joinQueue, ha, hb, he2]

theorem joinQueue_idempotent_witness :
    (∀ resp ∈ (runJoins emptySys sampleEvent "U1" [100, 200, 300]).2,
      resp.map JoinQueueResponse.position = .ok 1 ∧
        resp.map JoinQueueResponse.status = .ok .WAITING) ∧
      ((runJoins emptySys sampleEvent "U1"
          [100, 200, 300]).1.redis.queue "E1").length = 1 :=
  have h := joinQueue_idempotent emptySys sampleEvent "U1" 100 [200, 300]
    rfl rfl (by simp [emptySys, RedisState.initial]) (by decide)
  ⟨h.1, h.2.1⟩

end TicketQueue
